import Mathlib

/-!
# A model of the Jito JSON-RPC client (package `jitorpc`)

Shallow embedding of `rpc.go` and `bundles.go`.

* A Go slice is modelled by `Slice α := Option (List α)`; `none` is the nil
  slice, `some xs` a non-nil slice with elements `xs`.
* A value stored in an `interface{}` is a `GoValue`.
* A Go `error` is modelled by its message (`err.Error()`); `nil` is `none`.
* Library calls whose behaviour is not part of this repository
  (`json.Marshal`, `http.NewRequest`, `json.Decoder.Decode`, `json.Unmarshal`)
  are fields of `Env`; the HTTP transport `c.Client.Do` is a field of the client.
* Every operation returns a `Call`: the URL string and JSON-RPC envelope it
  built, the HTTP request it handed to the transport (if it got that far), and
  the two values it returned.
* `http.NewRequest` parses the URL string it is given; the parsed URL is what
  `Env.parseURL` yields. `http.Header` stores and looks up keys in canonical
  form (`textproto.CanonicalMIMEHeaderKey`).
* The `fmt.Printf` calls guarded by `isDebugEnabled` only write to standard
  output and are left out.
-/

set_option autoImplicit false

namespace JitoRpc

/-! ## Go values -/

/-- A byte of a `[]byte` / `json.RawMessage`. -/
abbrev Byte := Fin 256

/-- A Go slice: `none` is the nil slice. -/
abbrev Slice (α : Type) := Option (List α)

/-- The elements of a slice, in order (what `range` visits). -/
def Slice.elems {α : Type} : Slice α → List α
  | none => []
  | some xs => xs

/-- Go `len(s)`. -/
def Slice.len {α : Type} (s : Slice α) : Nat := s.elems.length

/-- Go `append(s, xs...)`: a nil slice stays nil when nothing is appended. -/
def Slice.append {α : Type} (s : Slice α) (xs : List α) : Slice α :=
  match s, xs with
  | none, [] => none
  | none, x :: rest => some (x :: rest)
  | some ys, xs => some (ys ++ xs)

/-- The dynamic values that can sit in an `interface{}` here. -/
inductive GoValue where
  /-- The nil interface value. -/
  | nil : GoValue
  | bool (b : Bool) : GoValue
  | int (n : Int) : GoValue
  | str (s : String) : GoValue
  /-- A value of type `[]string`. -/
  | strSlice (xs : Option (List String)) : GoValue
  /-- A value of type `[][]string`. -/
  | strSliceSlice (xss : Option (List (Option (List String)))) : GoValue
  /-- A value of type `map[string]string`, as its key/value entries. -/
  | strMap (entries : List (String × String)) : GoValue
  /-- A value of type `[]interface{}`. -/
  | ifaceSlice (vs : Option (List GoValue)) : GoValue

/-- The Go literal `map[string]string{"encoding": "base64"}`. -/
def encodingBase64 : GoValue := GoValue.strMap [("encoding", "base64")]

/-! ## Types of the package -/

/-- Modelled from the spec: the declaration of `JsonRpcRequest` is not among the
source files; its four fields are those set at `rpc.go` lines 35-40. -/
structure JsonRpcRequest where
  JsonRpc : String
  ID : Int
  Method : String
  Params : GoValue

/-- Modelled from the spec: the error member of a response envelope,
`{"code": <int>, "message": <string>}`. -/
structure JsonRpcError where
  Code : Int
  Message : String

/-- Modelled from the spec: the declaration of `JsonRpcResponse` is not among the
source files; `Result` is a `json.RawMessage`, `Error` a pointer that is nil
when the envelope has no error. -/
structure JsonRpcResponse where
  Result : Slice Byte
  Error : Option JsonRpcError

/-- Go `TipAccount`, `bundles.go` lines 11-13. -/
structure TipAccount where
  Address : String

/-- One entry of `BundleStatusResponse.Value`, `bundles.go` lines 19-27. -/
structure BundleStatus where
  BundleID : String
  Transactions : Slice String
  Slot : Int
  ConfirmationStatus : String
  ErrOk : GoValue

/-- Go `BundleStatusResponse`, `bundles.go` lines 15-28. -/
structure BundleStatusResponse where
  ContextSlot : Int
  Value : Slice BundleStatus

/-- An `http.Header`, as its key/value entries. -/
abbrev Header := List (String × String)

/-- Go `validHeaderFieldByte` of `net/textproto`: the bytes of an HTTP token,
which are the letters, the digits and fifteen punctuation characters, listed
here by their codes. -/
def validHeaderFieldByte (ch : Char) : Bool :=
  ch.isAlphanum ||
    [33, 35, 36, 37, 38, 39, 42, 43, 45, 46, 94, 95, 96, 124, 126].contains ch.toNat

/-- The case normalisation of `textproto.CanonicalMIMEHeaderKey`: a letter is
upper case at the start and after a hyphen, lower case elsewhere. -/
def canonicalCase : Bool → List Char → List Char
  | _, [] => []
  | upper, ch :: rest =>
    let ch1 :=
      if upper && ch.isLower then ch.toUpper
      else if !upper && ch.isUpper then ch.toLower
      else ch
    ch1 :: canonicalCase (ch1 == '-') rest

/-- Go `textproto.CanonicalMIMEHeaderKey`: a key made of token bytes only is put
in canonical case, any other key is returned unchanged. -/
def canonicalMIMEHeaderKey (s : String) : String :=
  if s.data.all validHeaderFieldByte then String.mk (canonicalCase true s.data) else s

/-- Go `h.Set(key, value)`: replaces whatever was stored under the canonical
form of `key`. -/
def Header.set (h : Header) (key value : String) : Header :=
  h.filter (fun kv => kv.1 != canonicalMIMEHeaderKey key)
    ++ [(canonicalMIMEHeaderKey key, value)]

/-- Go `h.Get(key)`: the value stored under the canonical form of `key`, with
`none` when nothing is stored under it. -/
def Header.get (h : Header) (key : String) : Option String :=
  (h.find? (fun kv => kv.1 == canonicalMIMEHeaderKey key)).map Prod.snd

/-- The parts of an `*http.Request` that the client sets. `URL` is the URL that
`http.NewRequest` parsed out of the string it was given. -/
structure HttpRequest where
  Method : String
  URL : String
  Header : Header
  Body : List Byte

/-- The parts of an `*http.Response` that the client reads. -/
structure HttpResponse where
  Status : String
  Body : List Byte

/-- Modelled from the spec: the declaration of `JitoJsonRpcClient` is not among
the source files; it holds the base URL, the access token (`UUID`) and the HTTP
transport, whose `Do` either fails with an error or yields a response. -/
structure JitoJsonRpcClient where
  BaseURL : String
  UUID : String
  Client : HttpRequest → Except String HttpResponse

/-- Library behaviour the client relies on. -/
structure Env where
  /-- Go `json.Marshal(request)`. -/
  marshal : JsonRpcRequest → Except String (List Byte)
  /-- The URL that `http.NewRequest` parses out of the string it is given (the
  request is addressed to the parsed, normalised form), or the error with
  which it rejects the string. -/
  parseURL : String → Except String String
  /-- Go `json.NewDecoder(resp.Body).Decode(&jsonResp)`. -/
  decode : List Byte → Except String JsonRpcResponse
  /-- Go `json.Unmarshal(raw, &tipAddresses)` with `tipAddresses []string`. -/
  unmarshalStrings : Slice Byte → Except String (Slice String)
  /-- Go `json.Unmarshal(raw, &response)` with `response BundleStatusResponse`. -/
  unmarshalStatuses : Slice Byte → Except String BundleStatusResponse

/-- What one call of an operation did and returned. -/
structure Call (ρ : Type) where
  /-- The URL string the operation builds and passes to `http.NewRequest`. -/
  url : String
  /-- The JSON-RPC envelope that is serialised into the request body. -/
  request : JsonRpcRequest
  /-- The HTTP request handed to the transport, when the call got that far. -/
  sent : Option HttpRequest
  /-- The first returned value. -/
  ret : ρ
  /-- The returned error. -/
  err : Option String

/-! ## rpc.go -/

/-- The HTTP request built at `rpc.go` lines 52-60 (and `bundles.go` lines 113-121,
186-194): a POST to the URL `parsed` that `http.NewRequest` made of the URL
string, with the serialised envelope as body, the content type, and the access
token as `x-jito-auth` when there is one. -/
def httpRequest (c : JitoJsonRpcClient) (parsed : String) (requestBody : List Byte) :
    HttpRequest :=
  let header : Header := Header.set [] "Content-Type" "application/json"
  { Method := "POST", URL := parsed, Body := requestBody,
    Header := if c.UUID != "" then Header.set header "x-jito-auth" c.UUID else header }

/-- The tail shared by `sendRequest` (`rpc.go` lines 42-86), `SendBundle`
(`bundles.go` lines 103-147) and `SimulateBundle` (`bundles.go` lines 176-220),
which repeat it line for line: serialise the envelope, POST it, decode the
response envelope, and return its result or its error. -/
def roundTrip (c : JitoJsonRpcClient) (env : Env) (url : String)
    (request : JsonRpcRequest) : Call (Slice Byte) :=
  match env.marshal request with
  | .error e =>
    { url := url, request := request, sent := none,
      ret := none, err := some ("error marshaling request: " ++ e) }
  | .ok requestBody =>
    match env.parseURL url with
    | .error e =>
      { url := url, request := request, sent := none,
        ret := none, err := some ("error creating request: " ++ e) }
    | .ok parsed =>
      match c.Client (httpRequest c parsed requestBody) with
      | .error e =>
        { url := url, request := request, sent := some (httpRequest c parsed requestBody),
          ret := none, err := some ("error sending request: " ++ e) }
      | .ok resp =>
        match env.decode resp.Body with
        | .error e =>
          { url := url, request := request, sent := some (httpRequest c parsed requestBody),
            ret := none, err := some ("error decoding response: " ++ e) }
        | .ok jsonResp =>
          match jsonResp.Error with
          | some rpcErr =>
            { url := url, request := request,
              sent := some (httpRequest c parsed requestBody),
              ret := none, err := some ("RPC error: " ++ rpcErr.Message) }
          | none =>
            { url := url, request := request,
              sent := some (httpRequest c parsed requestBody),
              ret := jsonResp.Result, err := none }

/-- The parameter shaping of `sendRequest`, `rpc.go` lines 13-32. -/
def requestParams (method : String) (params : GoValue) : GoValue :=
  if method = "sendBundle" then
    match params with
    | .strSliceSlice bundleData =>
      match Slice.elems bundleData with
      | first :: _ => .ifaceSlice (some [.strSlice first, encodingBase64])
      | [] => params
    | _ => params
  else if method = "sendTransaction" then
    match params with
    | .ifaceSlice v => .ifaceSlice (Slice.append v [encodingBase64])
    | .str v => .ifaceSlice (some [.str v, encodingBase64])
    | _ => .ifaceSlice (some [params, encodingBase64])
  else params

/-- Go `sendRequest`, `rpc.go` lines 10-87. -/
def sendRequest (c : JitoJsonRpcClient) (env : Env) (endpoint method : String)
    (params : GoValue) : Call (Slice Byte) :=
  let url := c.BaseURL ++ endpoint
  let request : JsonRpcRequest :=
    { JsonRpc := "2.0", ID := 1, Method := method, Params := requestParams method params }
  roundTrip c env url request

/-! ## bundles.go -/

/-- The endpoint or URL with the access token attached, as done at the head of
every public operation: `if c.UUID != "" { x = fmt.Sprintf("%s?uuid=%s", x, c.UUID) }`. -/
def withUUID (c : JitoJsonRpcClient) (x : String) : String :=
  if c.UUID != "" then x ++ "?uuid=" ++ c.UUID else x

/-- Go `GetTipAccounts`, `bundles.go` lines 30-36. -/
def GetTipAccounts (c : JitoJsonRpcClient) (env : Env) : Call (Slice Byte) :=
  let endpoint := withUUID c "/bundles"
  sendRequest c env endpoint "getTipAccounts" GoValue.nil

/-- Go `GetRandomTipAccount`, `bundles.go` lines 38-56. `randIntn` stands for
`rand.Intn`. The outer `Option` is `none` when the index expression
`tipAddresses[randomIndex]` is out of range (a run-time panic); otherwise the
pair is the returned pointer (`none` for nil) and the returned error. -/
def GetRandomTipAccount (c : JitoJsonRpcClient) (env : Env) (randIntn : Nat → Nat) :
    Option (Option TipAccount × Option String) :=
  let call := GetTipAccounts c env
  match call.err with
  | some err => some (none, some err)
  | none =>
    match env.unmarshalStrings call.ret with
    | .error e => some (none, some ("failed to unmarshal tip accounts: " ++ e))
    | .ok tipAddresses =>
      if Slice.len tipAddresses = 0 then
        some (none, some "no tip accounts available")
      else
        let randomIndex := randIntn (Slice.len tipAddresses)
        match (Slice.elems tipAddresses)[randomIndex]? with
        | none => none
        | some address => some (some { Address := address }, none)

/-- Go `GetBundleStatuses`, `bundles.go` lines 58-75. -/
def GetBundleStatuses (c : JitoJsonRpcClient) (env : Env) (bundleIds : Slice String) :
    Call (Option BundleStatusResponse) :=
  let endpoint := withUUID c "/getBundleStatuses"
  let params := GoValue.strSliceSlice (some [bundleIds])
  let call := sendRequest c env endpoint "getBundleStatuses" params
  match call.err with
  | some err => { call with ret := none, err := some err }
  | none =>
    match env.unmarshalStatuses call.ret with
    | .error e =>
      { call with ret := none, err := some ("failed to unmarshal bundle statuses: " ++ e) }
    | .ok response => { call with ret := some response, err := none }

/-- The loop of `SendBundle` and `SimulateBundle` (`bundles.go` lines 83-86 and
156-159): starting from the nil slice, append every group in turn. -/
def collectTransactions (bundleTransactions : Slice (Slice String)) : Slice String :=
  (Slice.elems bundleTransactions).foldl
    (fun transactions txGroup => Slice.append transactions (Slice.elems txGroup)) none

/-- Go `SendBundle`, `bundles.go` lines 77-148. -/
def SendBundle (c : JitoJsonRpcClient) (env : Env)
    (bundleTransactions : Slice (Slice String)) : Call (Slice Byte) :=
  let url := withUUID c (c.BaseURL ++ "/bundles")
  let transactions := collectTransactions bundleTransactions
  let request : JsonRpcRequest :=
    { JsonRpc := "2.0", ID := 1, Method := "sendBundle",
      Params := .ifaceSlice (some [.strSlice transactions, encodingBase64]) }
  roundTrip c env url request

/-- Go `SimulateBundle`, `bundles.go` lines 150-221. -/
def SimulateBundle (c : JitoJsonRpcClient) (env : Env)
    (bundleTransactions : Slice (Slice String)) : Call (Slice Byte) :=
  let url := withUUID c c.BaseURL
  let transactions := collectTransactions bundleTransactions
  let request : JsonRpcRequest :=
    { JsonRpc := "2.0", ID := 1, Method := "simulateBundle",
      Params := .ifaceSlice (some [.strSlice transactions, encodingBase64]) }
  roundTrip c env url request

/-- Go `GetInflightBundleStatuses`, `bundles.go` lines 223-229. -/
def GetInflightBundleStatuses (c : JitoJsonRpcClient) (env : Env) (params : GoValue) :
    Call (Slice Byte) :=
  let endpoint := withUUID c "/getInflightBundleStatuses"
  sendRequest c env endpoint "getInflightBundleStatuses" params

/-! ## A concrete client and library, for evaluating the model -/

/-- The bytes of the JSON text `"ok"`. -/
def okBytes : List Byte := [34, 111, 107, 34]

/-- A response envelope with a result and no error. -/
def okResponse : JsonRpcResponse := { Result := some okBytes, Error := none }

/-- A response envelope with an error and, nevertheless, a result. -/
def failResponse : JsonRpcResponse :=
  { Result := some okBytes, Error := some { Code := -32000, Message := "boom" } }

/-- A transport that answers every request with status 200 and body `body`. -/
def fixedTransport (body : List Byte) : HttpRequest → Except String HttpResponse :=
  fun _ => .ok { Status := "200 OK", Body := body }

/-- A library whose decoder yields `resp` and whose tip-account list is `tips`;
every envelope serialises to the empty body and every URL string is accepted
as it is. -/
def fixedEnv (resp : JsonRpcResponse) (tips : Slice String) : Env :=
  { marshal := fun _ => .ok []
    parseURL := fun url => .ok url
    decode := fun _ => .ok resp
    unmarshalStrings := fun _ => .ok tips
    unmarshalStatuses := fun _ => .ok { ContextSlot := 0, Value := none } }

/-- A client without access token. -/
def plainClient : JitoJsonRpcClient :=
  { BaseURL := "https://relay.example/api/v1", UUID := "", Client := fixedTransport [] }

/-- A client with access token `tok`. -/
def tokenClient : JitoJsonRpcClient :=
  { BaseURL := "https://relay.example/api/v1", UUID := "tok", Client := fixedTransport [] }

/-! ## Vocabulary of the specification -/

/-- The request URL as the specification words it: the base URL, the endpoint,
and `?uuid=` with the token exactly when the token is non-empty. -/
def specURL (c : JitoJsonRpcClient) (endpoint : String) : String :=
  if c.UUID = "" then c.BaseURL ++ endpoint else c.BaseURL ++ endpoint ++ "?uuid=" ++ c.UUID

/-- The `x-jito-auth` header as the specification words it: the token exactly
when the token is non-empty. -/
def specAuth (c : JitoJsonRpcClient) : Option String :=
  if c.UUID = "" then none else some c.UUID

/-- The operation builds the URL string `url`; and whenever its envelope
serialises to `body` and `http.NewRequest` makes the URL `parsed` of `url`, it
hands to the transport a POST to `parsed` with body `body` whose `x-jito-auth`
header is `auth`, and a failure of the transport on that very request is what
the operation reports. -/
def PostsTo {ρ : Type} (c : JitoJsonRpcClient) (env : Env) (call : Call ρ) (url : String)
    (auth : Option String) : Prop :=
  call.url = url ∧
    ∀ body parsed, env.marshal call.request = .ok body → env.parseURL url = .ok parsed →
      ∃ req, call.sent = some req ∧
        req.Method = "POST" ∧ req.URL = parsed ∧ req.Body = body ∧
        Header.get req.Header "x-jito-auth" = auth ∧
        ∀ e, c.Client req = .error e → call.err = some ("error sending request: " ++ e)

/-- The server is asked and answers with `resp`: the envelope `request`
serialises, `http.NewRequest` accepts `url`, the transport answers the request
built from them, and the body of its answer decodes to the envelope `resp`. -/
def Answered (c : JitoJsonRpcClient) (env : Env) (url : String) (request : JsonRpcRequest)
    (resp : JsonRpcResponse) : Prop :=
  ∃ body parsed httpResp,
    env.marshal request = .ok body ∧ env.parseURL url = .ok parsed ∧
    c.Client (httpRequest c parsed body) = .ok httpResp ∧
    env.decode httpResp.Body = .ok resp

/-- The value is a `[]interface{}` whose last element is
`map[string]string{"encoding": "base64"}`. -/
def EndsWithEncoding (v : GoValue) : Prop :=
  ∃ vs : List GoValue, v = GoValue.ifaceSlice (some vs) ∧ vs.getLast? = some encodingBase64

/-! ## Basic facts about the model -/

theorem Slice.elems_append {α : Type} (s : Slice α) (xs : List α) :
    Slice.elems (Slice.append s xs) = Slice.elems s ++ xs := by
  cases s with
  | none => cases xs <;> rfl
  | some ys => rfl

theorem foldl_append_elems (groups : List (Slice String)) (acc : Slice String) :
    Slice.elems (groups.foldl
        (fun transactions txGroup => Slice.append transactions (Slice.elems txGroup)) acc)
      = Slice.elems acc ++ (groups.map Slice.elems).flatten := by
  induction groups generalizing acc with
  | nil => simp
  | cons g rest ih =>
    simp only [List.foldl_cons, List.map_cons, List.flatten_cons]
    rw [ih, Slice.elems_append, List.append_assoc]

theorem collectTransactions_elems (groups : Slice (Slice String)) :
    Slice.elems (collectTransactions groups)
      = ((Slice.elems groups).map Slice.elems).flatten := by
  unfold collectTransactions
  rw [foldl_append_elems]
  rfl

theorem foldl_append_eq_none (groups : List (Slice String)) (acc : Slice String) :
    groups.foldl
        (fun transactions txGroup => Slice.append transactions (Slice.elems txGroup)) acc = none
      ↔ acc = none ∧ (groups.map Slice.elems).flatten = [] := by
  induction groups generalizing acc with
  | nil => simp
  | cons g rest ih =>
    simp only [List.foldl_cons, List.map_cons, List.flatten_cons, ih, List.append_eq_nil]
    cases acc with
    | none => cases h : Slice.elems g <;> simp [Slice.append]
    | some ys => simp [Slice.append]

/-- The collected slice is the nil slice exactly when no group holds a
transaction (the loop never appends anything to the nil slice it starts from). -/
theorem collectTransactions_eq_none (groups : Slice (Slice String)) :
    collectTransactions groups = none
      ↔ ((Slice.elems groups).map Slice.elems).flatten = [] := by
  unfold collectTransactions
  rw [foldl_append_eq_none]
  simp

theorem roundTrip_url (c : JitoJsonRpcClient) (env : Env) (url : String)
    (request : JsonRpcRequest) : (roundTrip c env url request).url = url := by
  unfold roundTrip
  repeat' split
  all_goals rfl

theorem roundTrip_request (c : JitoJsonRpcClient) (env : Env) (url : String)
    (request : JsonRpcRequest) : (roundTrip c env url request).request = request := by
  unfold roundTrip
  repeat' split
  all_goals rfl

/-- When the server answered with an envelope without error member, the call
returns the envelope's result and no error. -/
theorem roundTrip_of_no_error (c : JitoJsonRpcClient) (env : Env) (url : String)
    (request : JsonRpcRequest) (resp : JsonRpcResponse)
    (hans : Answered c env url request resp) (herr : resp.Error = none) :
    (roundTrip c env url request).ret = resp.Result ∧
      (roundTrip c env url request).err = none := by
  obtain ⟨body, parsed, httpResp, hm, hu, hc, hd⟩ := hans
  unfold roundTrip
  simp only [hm, hu, hc, hd, herr, and_self]

/-- When the server answered with an envelope with an error member, the call
returns the nil result and an error made of `RPC error: ` and the member's
message. -/
theorem roundTrip_of_error (c : JitoJsonRpcClient) (env : Env) (url : String)
    (request : JsonRpcRequest) (resp : JsonRpcResponse) (e : JsonRpcError)
    (hans : Answered c env url request resp) (herr : resp.Error = some e) :
    (roundTrip c env url request).ret = none ∧
      (roundTrip c env url request).err = some ("RPC error: " ++ e.Message) := by
  obtain ⟨body, parsed, httpResp, hm, hu, hc, hd⟩ := hans
  unfold roundTrip
  simp only [hm, hu, hc, hd, herr, and_self]

theorem canonical_content_type : canonicalMIMEHeaderKey "Content-Type" = "Content-Type" := by
  decide

theorem canonical_jito_auth : canonicalMIMEHeaderKey "x-jito-auth" = "X-Jito-Auth" := by
  decide

theorem httpRequest_auth (c : JitoJsonRpcClient) (parsed : String) (body : List Byte) :
    Header.get (httpRequest c parsed body).Header "x-jito-auth" = specAuth c := by
  unfold httpRequest specAuth
  by_cases h : c.UUID = ""
  · simp [h, Header.get, Header.set, canonical_content_type, canonical_jito_auth]
  · simp [h, Header.get, Header.set, List.find?_append, canonical_content_type,
      canonical_jito_auth]

theorem roundTrip_posts (c : JitoJsonRpcClient) (env : Env) (url : String)
    (request : JsonRpcRequest) :
    PostsTo c env (roundTrip c env url request) url (specAuth c) := by
  refine ⟨roundTrip_url c env url request, ?_⟩
  intro body parsed hm hu
  rw [roundTrip_request] at hm
  refine ⟨httpRequest c parsed body, ?_, rfl, rfl, rfl, httpRequest_auth c parsed body, ?_⟩
  · unfold roundTrip
    simp only [hm, hu]
    repeat' split
    all_goals rfl
  · intro e he
    unfold roundTrip
    simp only [hm, hu, he]

theorem withUUID_url (c : JitoJsonRpcClient) (endpoint : String) :
    c.BaseURL ++ withUUID c endpoint = specURL c endpoint := by
  unfold withUUID specURL
  by_cases h : c.UUID = ""
  · simp [h]
  · simp [h, String.append_assoc]

theorem withUUID_base (c : JitoJsonRpcClient) (endpoint : String) :
    withUUID c (c.BaseURL ++ endpoint) = specURL c endpoint := by
  unfold withUUID specURL
  by_cases h : c.UUID = ""
  · simp [h]
  · simp [h, String.append_assoc]

theorem sendRequest_posts (c : JitoJsonRpcClient) (env : Env) (endpoint method : String)
    (params : GoValue) :
    PostsTo c env (sendRequest c env (withUUID c endpoint) method params)
      (specURL c endpoint) (specAuth c) := by
  unfold sendRequest
  simp only [withUUID_url]
  exact roundTrip_posts _ _ _ _

theorem sendRequest_request (c : JitoJsonRpcClient) (env : Env) (endpoint method : String)
    (params : GoValue) :
    (sendRequest c env endpoint method params).request
      = { JsonRpc := "2.0", ID := 1, Method := method,
          Params := requestParams method params } := by
  unfold sendRequest
  exact roundTrip_request _ _ _ _

theorem GetBundleStatuses_request (c : JitoJsonRpcClient) (env : Env)
    (bundleIds : Slice String) :
    (GetBundleStatuses c env bundleIds).request
      = (sendRequest c env (withUUID c "/getBundleStatuses") "getBundleStatuses"
          (GoValue.strSliceSlice (some [bundleIds]))).request := by
  unfold GetBundleStatuses
  simp only []
  split
  · rfl
  · split <;> rfl

theorem Slice.append_nil {α : Type} (s : Slice α) : Slice.append s [] = s := by
  cases s with
  | none => rfl
  | some ys => simp [Slice.append]

theorem foldl_append_empty (rest : List (Slice String)) (acc : Slice String)
    (hrest : ∀ g ∈ rest, Slice.elems g = []) :
    rest.foldl (fun transactions txGroup => Slice.append transactions (Slice.elems txGroup)) acc
      = acc := by
  induction rest generalizing acc with
  | nil => rfl
  | cons g rest ih =>
    have hg : Slice.elems g = [] := hrest g (List.mem_cons_self g rest)
    simp only [List.foldl_cons, hg, Slice.append_nil]
    exact ih acc (fun g' hg' => hrest g' (List.mem_cons_of_mem g hg'))

theorem collectTransactions_single (first : Slice String) (rest : List (Slice String))
    (hfirst : first ≠ some []) (hrest : ∀ g ∈ rest, Slice.elems g = []) :
    collectTransactions (some (first :: rest)) = first := by
  unfold collectTransactions
  have h0 : Slice.elems (some (first :: rest) : Slice (Slice String)) = first :: rest := rfl
  rw [h0, List.foldl_cons, foldl_append_empty rest _ hrest]
  cases first with
  | none => rfl
  | some xs =>
    cases xs with
    | nil => exact absurd rfl hfirst
    | cons x xs => rfl

/-- The converse: the collected slice of a non-empty list of groups is its
first group only if that group is not the empty non-nil slice and no later
group holds a transaction. -/
theorem collectTransactions_single_only_if (first : Slice String)
    (rest : List (Slice String))
    (h : collectTransactions (some (first :: rest)) = first) :
    first ≠ some [] ∧ ∀ g ∈ rest, Slice.elems g = [] := by
  have helems := collectTransactions_elems (some (first :: rest))
  rw [h] at helems
  have h0 : Slice.elems (some (first :: rest) : Slice (Slice String)) = first :: rest := rfl
  rw [h0, List.map_cons, List.flatten_cons] at helems
  have hflat : (rest.map Slice.elems).flatten = [] := by
    have hlen := congrArg List.length helems
    rw [List.length_append] at hlen
    exact List.eq_nil_of_length_eq_zero (by omega)
  constructor
  · intro hf
    have hnone := (collectTransactions_eq_none (some (first :: rest))).mpr (by
      rw [h0, List.map_cons, List.flatten_cons, hflat, hf]
      rfl)
    rw [h, hf] at hnone
    cases hnone
  · intro g hg
    have hall := List.flatten_eq_nil_iff.mp hflat
    exact hall (Slice.elems g) (List.mem_map_of_mem Slice.elems hg)

/-- The params of the request `SendBundle` builds and of the request
`sendRequest` builds for method `sendBundle` and the same groups are equal
exactly when there is at least one group, the first group is not the empty
non-nil slice, and no later group holds a transaction. -/
theorem sendBundle_params_eq_iff (c : JitoJsonRpcClient) (env : Env) (endpoint : String)
    (groups : Slice (Slice String)) :
    (SendBundle c env groups).request.Params
        = (sendRequest c env endpoint "sendBundle" (.strSliceSlice groups)).request.Params
      ↔ ∃ first rest, groups = some (first :: rest) ∧ first ≠ some [] ∧
          ∀ g ∈ rest, Slice.elems g = [] := by
  rw [sendRequest_request]
  unfold SendBundle
  simp only [roundTrip_request]
  unfold requestParams
  rw [if_pos rfl]
  cases groups with
  | none =>
    constructor
    · intro h
      cases h
    · rintro ⟨first, rest, h, -⟩
      cases h
  | some gs =>
    cases gs with
    | nil =>
      constructor
      · intro h
        cases h
      · rintro ⟨first, rest, h, -⟩
        cases h
    | cons first rest =>
      constructor
      · intro h
        have h1 : GoValue.ifaceSlice
            (some [.strSlice (collectTransactions (some (first :: rest))), encodingBase64])
            = GoValue.ifaceSlice (some [.strSlice first, encodingBase64]) := h
        have h2 : collectTransactions (some (first :: rest)) = first := by
          simpa using h1
        exact ⟨first, rest, rfl, collectTransactions_single_only_if first rest h2⟩
      · rintro ⟨first1, rest1, h, hfirst, hrest⟩
        cases h
        rw [collectTransactions_single first rest hfirst hrest]
        rfl

/-! ## The claims -/

/-- C1: for every list of transaction groups, the request built by `SendBundle`
has method `sendBundle` and params the two-element list made of the slice of
all transactions (groups in input order, transactions in their order within
each group) and the object mapping `encoding` to `base64`; for the groups
`[["txA","txB"]]` the params are `[["txA","txB"], {"encoding":"base64"}]`. -/
theorem SendBundle_request (c : JitoJsonRpcClient) (env : Env)
    (bundleTransactions : Slice (Slice String)) :
    (SendBundle c env bundleTransactions).request.Method = "sendBundle" ∧
    (SendBundle c env bundleTransactions).request.Params
      = .ifaceSlice (some [.strSlice (collectTransactions bundleTransactions),
          .strMap [("encoding", "base64")]]) ∧
    Slice.elems (collectTransactions bundleTransactions)
      = ((Slice.elems bundleTransactions).map Slice.elems).flatten ∧
    (SendBundle c env (some [some ["txA", "txB"]])).request.Params
      = .ifaceSlice (some [.strSlice (some ["txA", "txB"]),
          .strMap [("encoding", "base64")]]) := by
  refine ⟨?_, ?_, collectTransactions_elems bundleTransactions, ?_⟩
  · simp [SendBundle, roundTrip_request]
  · simp [SendBundle, roundTrip_request, encodingBase64]
  · simp [SendBundle, roundTrip_request, encodingBase64, collectTransactions,
      Slice.elems, Slice.append]

/-- C2: whenever the server answers with a response envelope whose error is null
and whose result is non-null, `sendRequest`, `SendBundle` and `SimulateBundle`
return exactly that result and no error. -/
theorem result_returned_unchanged (c : JitoJsonRpcClient) (env : Env)
    (endpoint method : String) (params : GoValue) (bundleTransactions : Slice (Slice String))
    (resp : JsonRpcResponse) (result : List Byte)
    (herr : resp.Error = none) (hres : resp.Result = some result) :
    (Answered c env (c.BaseURL ++ endpoint)
        { JsonRpc := "2.0", ID := 1, Method := method,
          Params := requestParams method params } resp →
      (sendRequest c env endpoint method params).ret = some result ∧
      (sendRequest c env endpoint method params).err = none) ∧
    (Answered c env (withUUID c (c.BaseURL ++ "/bundles"))
        { JsonRpc := "2.0", ID := 1, Method := "sendBundle",
          Params := .ifaceSlice (some [.strSlice (collectTransactions bundleTransactions),
            encodingBase64]) } resp →
      (SendBundle c env bundleTransactions).ret = some result ∧
      (SendBundle c env bundleTransactions).err = none) ∧
    (Answered c env (withUUID c c.BaseURL)
        { JsonRpc := "2.0", ID := 1, Method := "simulateBundle",
          Params := .ifaceSlice (some [.strSlice (collectTransactions bundleTransactions),
            encodingBase64]) } resp →
      (SimulateBundle c env bundleTransactions).ret = some result ∧
      (SimulateBundle c env bundleTransactions).err = none) := by
  refine ⟨?_, ?_, ?_⟩
  all_goals
    intro hans
    rw [← hres]
    exact roundTrip_of_no_error c env _ _ resp hans herr

/-- C2 at a concrete server: the transport answers, the answer decodes to an
envelope with result `"ok"` and no error, and each of the three functions
returns `"ok"` and no error. -/
theorem result_returned_unchanged_witness :
    okResponse.Error = none ∧ okResponse.Result = some okBytes ∧
    (fixedEnv okResponse none).decode [] = .ok okResponse ∧
    (sendRequest plainClient (fixedEnv okResponse none) "/bundles" "getTipAccounts"
      .nil).ret = some okBytes ∧
    (sendRequest plainClient (fixedEnv okResponse none) "/bundles" "getTipAccounts"
      .nil).err = none ∧
    (SendBundle plainClient (fixedEnv okResponse none) (some [some ["txA"]])).ret
      = some okBytes ∧
    (SendBundle plainClient (fixedEnv okResponse none) (some [some ["txA"]])).err = none ∧
    (SimulateBundle plainClient (fixedEnv okResponse none) (some [some ["txA"]])).ret
      = some okBytes ∧
    (SimulateBundle plainClient (fixedEnv okResponse none) (some [some ["txA"]])).err
      = none :=
  have h := result_returned_unchanged plainClient (fixedEnv okResponse none) "/bundles"
    "getTipAccounts" .nil (some [some ["txA"]]) okResponse okBytes rfl rfl
  have h1 := h.1 ⟨[], _, _, rfl, rfl, rfl, rfl⟩
  have h2 := h.2.1 ⟨[], _, _, rfl, rfl, rfl, rfl⟩
  have h3 := h.2.2 ⟨[], _, _, rfl, rfl, rfl, rfl⟩
  ⟨rfl, rfl, rfl, h1.1, h1.2, h2.1, h2.2, h3.1, h3.2⟩

/-- C3 (as the code has it): whenever the server answers with a response
envelope whose error is non-null, whatever its result, `sendRequest`,
`SendBundle` and `SimulateBundle` return no result and an error whose message is
`RPC error: ` followed by the server's error message. -/
theorem rpc_error_returned (c : JitoJsonRpcClient) (env : Env)
    (endpoint method : String) (params : GoValue) (bundleTransactions : Slice (Slice String))
    (resp : JsonRpcResponse) (e : JsonRpcError) (herr : resp.Error = some e) :
    (Answered c env (c.BaseURL ++ endpoint)
        { JsonRpc := "2.0", ID := 1, Method := method,
          Params := requestParams method params } resp →
      (sendRequest c env endpoint method params).ret = none ∧
      (sendRequest c env endpoint method params).err = some ("RPC error: " ++ e.Message)) ∧
    (Answered c env (withUUID c (c.BaseURL ++ "/bundles"))
        { JsonRpc := "2.0", ID := 1, Method := "sendBundle",
          Params := .ifaceSlice (some [.strSlice (collectTransactions bundleTransactions),
            encodingBase64]) } resp →
      (SendBundle c env bundleTransactions).ret = none ∧
      (SendBundle c env bundleTransactions).err = some ("RPC error: " ++ e.Message)) ∧
    (Answered c env (withUUID c c.BaseURL)
        { JsonRpc := "2.0", ID := 1, Method := "simulateBundle",
          Params := .ifaceSlice (some [.strSlice (collectTransactions bundleTransactions),
            encodingBase64]) } resp →
      (SimulateBundle c env bundleTransactions).ret = none ∧
      (SimulateBundle c env bundleTransactions).err = some ("RPC error: " ++ e.Message)) := by
  refine ⟨?_, ?_, ?_⟩
  all_goals
    intro hans
    exact roundTrip_of_error c env _ _ resp e hans herr

/-- C3 at a concrete server: the answer decodes to an envelope with error
message `boom` and a populated result, and each of the three functions returns
no result and the error `RPC error: boom`. -/
theorem rpc_error_returned_witness :
    failResponse.Error = some { Code := -32000, Message := "boom" } ∧
    failResponse.Result = some okBytes ∧
    (fixedEnv failResponse none).decode [] = .ok failResponse ∧
    (sendRequest plainClient (fixedEnv failResponse none) "/bundles" "getTipAccounts"
      .nil).ret = none ∧
    (sendRequest plainClient (fixedEnv failResponse none) "/bundles" "getTipAccounts"
      .nil).err = some "RPC error: boom" ∧
    (SendBundle plainClient (fixedEnv failResponse none) (some [some ["txA"]])).ret = none ∧
    (SendBundle plainClient (fixedEnv failResponse none) (some [some ["txA"]])).err
      = some "RPC error: boom" ∧
    (SimulateBundle plainClient (fixedEnv failResponse none) (some [some ["txA"]])).ret
      = none ∧
    (SimulateBundle plainClient (fixedEnv failResponse none) (some [some ["txA"]])).err
      = some "RPC error: boom" :=
  have h := rpc_error_returned plainClient (fixedEnv failResponse none) "/bundles"
    "getTipAccounts" .nil (some [some ["txA"]]) failResponse
    { Code := -32000, Message := "boom" } rfl
  have h1 := h.1 ⟨[], _, _, rfl, rfl, rfl, rfl⟩
  have h2 := h.2.1 ⟨[], _, _, rfl, rfl, rfl, rfl⟩
  have h3 := h.2.2 ⟨[], _, _, rfl, rfl, rfl, rfl⟩
  ⟨rfl, rfl, rfl, h1.1, h1.2, h2.1, h2.2, h3.1, h3.2⟩

/-- C3 as stated fails: the server answers with error message `boom`, and the
message of the error that each of the three functions returns is
`RPC error: boom`, not `boom`. -/
theorem rpc_error_message_not_equal :
    Answered plainClient (fixedEnv failResponse none) ("https://relay.example/api/v1/bundles")
      { JsonRpc := "2.0", ID := 1, Method := "getTipAccounts", Params := .nil }
      failResponse ∧
    failResponse.Error.map JsonRpcError.Message = some "boom" ∧
    (sendRequest plainClient (fixedEnv failResponse none) "/bundles" "getTipAccounts"
      .nil).err = some "RPC error: boom" ∧
    (sendRequest plainClient (fixedEnv failResponse none) "/bundles" "getTipAccounts"
      .nil).err ≠ some "boom" ∧
    (SendBundle plainClient (fixedEnv failResponse none) (some [some ["txA"]])).err
      ≠ some "boom" ∧
    (SimulateBundle plainClient (fixedEnv failResponse none) (some [some ["txA"]])).err
      ≠ some "boom" :=
  ⟨⟨[], _, _, rfl, rfl, rfl, rfl⟩, rfl, rfl, by decide, by decide, by decide⟩

/-- C4: for every base URL and access token, each public operation builds as
request URL the base URL followed by its endpoint (`/bundles` for
`GetTipAccounts` and `SendBundle`, `/getBundleStatuses`,
`/getInflightBundleStatuses`, nothing for `SimulateBundle`), followed by `?uuid=`
and the token exactly when the token is non-empty; and whenever the envelope
serialises and `http.NewRequest` accepts that URL, the operation hands to the
transport a POST to it whose `x-jito-auth` header is the token exactly when the
token is non-empty. -/
theorem request_url_and_auth (c : JitoJsonRpcClient) (env : Env) (bundleIds : Slice String)
    (params : GoValue) (bundleTransactions : Slice (Slice String)) :
    PostsTo c env (GetTipAccounts c env) (specURL c "/bundles") (specAuth c) ∧
    PostsTo c env (SendBundle c env bundleTransactions) (specURL c "/bundles") (specAuth c) ∧
    PostsTo c env (GetBundleStatuses c env bundleIds) (specURL c "/getBundleStatuses")
      (specAuth c) ∧
    PostsTo c env (GetInflightBundleStatuses c env params)
      (specURL c "/getInflightBundleStatuses") (specAuth c) ∧
    PostsTo c env (SimulateBundle c env bundleTransactions) (specURL c "") (specAuth c) := by
  refine ⟨sendRequest_posts c env _ _ _, ?_, ?_, sendRequest_posts c env _ _ _, ?_⟩
  · unfold SendBundle
    simp only [withUUID_base]
    exact roundTrip_posts _ _ _ _
  · have h := sendRequest_posts c env "/getBundleStatuses" "getBundleStatuses"
      (GoValue.strSliceSlice (some [bundleIds]))
    refine ⟨?_, ?_⟩
    · rw [← h.1]
      unfold GetBundleStatuses
      simp only []
      split
      · rfl
      · split <;> rfl
    · intro body parsed hm hu
      rw [GetBundleStatuses_request] at hm
      obtain ⟨req, hsent, hmeth, hurl, hbody, hauth, hfail⟩ := h.2 body parsed hm hu
      refine ⟨req, ?_, hmeth, hurl, hbody, hauth, ?_⟩
      · rw [← hsent]
        unfold GetBundleStatuses
        simp only []
        split
        · rfl
        · split <;> rfl
      · intro e he
        have herr := hfail e he
        unfold GetBundleStatuses
        simp only [herr]
  · have h := withUUID_base c ""
    simp only [String.append_empty] at h
    unfold SimulateBundle
    simp only [h]
    exact roundTrip_posts _ _ _ _

/-- C4 at two concrete clients: with token `tok` each of the five operations
hands to the transport a request to its URL with `?uuid=tok` whose
`x-jito-auth` header is `tok`; without token the URL has no query and the
header is absent. -/
theorem request_url_and_auth_witness :
    (∃ req, (GetTipAccounts tokenClient (fixedEnv okResponse none)).sent = some req ∧
      req.URL = "https://relay.example/api/v1/bundles?uuid=tok" ∧
      Header.get req.Header "x-jito-auth" = some "tok") ∧
    (∃ req, (SendBundle tokenClient (fixedEnv okResponse none) none).sent = some req ∧
      req.URL = "https://relay.example/api/v1/bundles?uuid=tok" ∧
      Header.get req.Header "x-jito-auth" = some "tok") ∧
    (∃ req, (GetBundleStatuses tokenClient (fixedEnv okResponse none) none).sent = some req ∧
      req.URL = "https://relay.example/api/v1/getBundleStatuses?uuid=tok" ∧
      Header.get req.Header "x-jito-auth" = some "tok") ∧
    (∃ req, (GetInflightBundleStatuses tokenClient (fixedEnv okResponse none) .nil).sent
        = some req ∧
      req.URL = "https://relay.example/api/v1/getInflightBundleStatuses?uuid=tok" ∧
      Header.get req.Header "x-jito-auth" = some "tok") ∧
    (∃ req, (SimulateBundle tokenClient (fixedEnv okResponse none) none).sent = some req ∧
      req.URL = "https://relay.example/api/v1?uuid=tok" ∧
      Header.get req.Header "x-jito-auth" = some "tok") ∧
    (∃ req, (GetTipAccounts plainClient (fixedEnv okResponse none)).sent = some req ∧
      req.URL = "https://relay.example/api/v1/bundles" ∧
      Header.get req.Header "x-jito-auth" = none) ∧
    (∃ req, (SimulateBundle plainClient (fixedEnv okResponse none) none).sent = some req ∧
      req.URL = "https://relay.example/api/v1" ∧
      Header.get req.Header "x-jito-auth" = none) := by
  have ht := request_url_and_auth tokenClient (fixedEnv okResponse none) none .nil none
  have hp := request_url_and_auth plainClient (fixedEnv okResponse none) none .nil none
  refine ⟨?_, ?_, ?_, ?_, ?_, ?_, ?_⟩
  · obtain ⟨req, hs, -, hu, -, ha, -⟩ := ht.1.2 [] _ rfl rfl
    exact ⟨req, hs, hu, ha⟩
  · obtain ⟨req, hs, -, hu, -, ha, -⟩ := ht.2.1.2 [] _ rfl rfl
    exact ⟨req, hs, hu, ha⟩
  · obtain ⟨req, hs, -, hu, -, ha, -⟩ := ht.2.2.1.2 [] _ rfl rfl
    exact ⟨req, hs, hu, ha⟩
  · obtain ⟨req, hs, -, hu, -, ha, -⟩ := ht.2.2.2.1.2 [] _ rfl rfl
    exact ⟨req, hs, hu, ha⟩
  · obtain ⟨req, hs, -, hu, -, ha, -⟩ := ht.2.2.2.2.2 [] _ rfl rfl
    exact ⟨req, hs, hu, ha⟩
  · obtain ⟨req, hs, -, hu, -, ha, -⟩ := hp.1.2 [] _ rfl rfl
    exact ⟨req, hs, hu, ha⟩
  · obtain ⟨req, hs, -, hu, -, ha, -⟩ := hp.2.2.2.2.2 [] _ rfl rfl
    exact ⟨req, hs, hu, ha⟩

/-- C5 (as the code has it): for every params value, `sendRequest` with method
`sendTransaction` builds params that are a list ending in the `encoding`/`base64`
object; with method `sendBundle` it does so when the params are a non-empty
list of transaction groups, and otherwise it passes the params through
unmodified. -/
theorem encoding_appended (c : JitoJsonRpcClient) (env : Env) (endpoint : String)
    (params : GoValue) (bundleData : Slice (Slice String))
    (hlen : 0 < Slice.len bundleData) :
    EndsWithEncoding (sendRequest c env endpoint "sendTransaction" params).request.Params ∧
    EndsWithEncoding
      (sendRequest c env endpoint "sendBundle" (.strSliceSlice bundleData)).request.Params ∧
    ((∀ groups, params = .strSliceSlice groups → Slice.len groups = 0) →
      (sendRequest c env endpoint "sendBundle" params).request.Params = params) := by
  simp only [sendRequest_request]
  refine ⟨?_, ?_, ?_⟩
  · have hm : ¬ ("sendTransaction" = "sendBundle") := by decide
    unfold requestParams
    rw [if_neg hm, if_pos rfl]
    cases params with
    | ifaceSlice v =>
      cases v with
      | none => exact ⟨[encodingBase64], rfl, rfl⟩
      | some ys => exact ⟨ys ++ [encodingBase64], rfl, by simp⟩
    | str v => exact ⟨[.str v, encodingBase64], rfl, rfl⟩
    | nil => exact ⟨[.nil, encodingBase64], rfl, rfl⟩
    | bool b => exact ⟨[.bool b, encodingBase64], rfl, rfl⟩
    | int n => exact ⟨[.int n, encodingBase64], rfl, rfl⟩
    | strSlice xs => exact ⟨[.strSlice xs, encodingBase64], rfl, rfl⟩
    | strSliceSlice xss => exact ⟨[.strSliceSlice xss, encodingBase64], rfl, rfl⟩
    | strMap m => exact ⟨[.strMap m, encodingBase64], rfl, rfl⟩
  · unfold requestParams
    rw [if_pos rfl]
    cases bundleData with
    | none => exact absurd hlen (by decide)
    | some groups =>
      cases groups with
      | nil => exact absurd hlen (by decide)
      | cons first rest => exact ⟨[.strSlice first, encodingBase64], rfl, rfl⟩
  · intro hother
    unfold requestParams
    rw [if_pos rfl]
    cases params with
    | strSliceSlice groups =>
      have h0 := hother groups rfl
      cases groups with
      | none => rfl
      | some gs =>
        cases gs with
        | nil => rfl
        | cons first rest => simp [Slice.len, Slice.elems] at h0
    | _ => rfl

theorem encoding_appended_witness :
    0 < Slice.len (some [some ["txA"]]) ∧
    EndsWithEncoding (sendRequest plainClient (fixedEnv okResponse none) "/transactions"
      "sendTransaction" (.str "txA")).request.Params ∧
    EndsWithEncoding (sendRequest plainClient (fixedEnv okResponse none) "/bundles"
      "sendBundle" (.strSliceSlice (some [some ["txA"]]))).request.Params :=
  have h := encoding_appended plainClient (fixedEnv okResponse none) "/bundles"
    (.str "txA") (some [some ["txA"]]) (by decide)
  ⟨by decide,
    (encoding_appended plainClient (fixedEnv okResponse none) "/transactions"
      (.str "txA") (some [some ["txA"]]) (by decide)).1,
    h.2.1⟩

/-- C5 as stated fails: called with method `sendBundle` and an empty list of
groups, or with params that are not a list of groups (here a plain `[]string`),
`sendRequest` puts the params into the request as they are, without the
`encoding`/`base64` object. -/
theorem encoding_not_appended :
    ¬ EndsWithEncoding (sendRequest plainClient (fixedEnv okResponse none) "/bundles"
      "sendBundle" (.strSliceSlice (some []))).request.Params ∧
    ¬ EndsWithEncoding (sendRequest plainClient (fixedEnv okResponse none) "/bundles"
      "sendBundle" (.strSlice (some ["txA"]))).request.Params := by
  constructor
  · rintro ⟨vs, h, -⟩
    have hp : (sendRequest plainClient (fixedEnv okResponse none) "/bundles"
      "sendBundle" (.strSliceSlice (some []))).request.Params
        = .strSliceSlice (some []) := rfl
    rw [hp] at h
    cases h
  · rintro ⟨vs, h, -⟩
    have hp : (sendRequest plainClient (fixedEnv okResponse none) "/bundles"
      "sendBundle" (.strSlice (some ["txA"]))).request.Params
        = .strSlice (some ["txA"]) := rfl
    rw [hp] at h
    cases h

/-- C6: for every method name other than `sendBundle` and `sendTransaction` and
every params value, `sendRequest` puts the params into the request unmodified,
with jsonrpc `2.0`, id 1 and the given method name. -/
theorem params_passed_through (c : JitoJsonRpcClient) (env : Env)
    (endpoint method : String) (params : GoValue)
    (hb : method ≠ "sendBundle") (ht : method ≠ "sendTransaction") :
    (sendRequest c env endpoint method params).request.Params = params ∧
    (sendRequest c env endpoint method params).request.JsonRpc = "2.0" ∧
    (sendRequest c env endpoint method params).request.ID = 1 ∧
    (sendRequest c env endpoint method params).request.Method = method := by
  rw [sendRequest_request]
  refine ⟨?_, rfl, rfl, rfl⟩
  show requestParams method params = params
  unfold requestParams
  rw [if_neg hb, if_neg ht]

theorem params_passed_through_witness :
    "getInflightBundleStatuses" ≠ "sendBundle" ∧
    "getInflightBundleStatuses" ≠ "sendTransaction" ∧
    (sendRequest plainClient (fixedEnv okResponse none) "/getInflightBundleStatuses"
      "getInflightBundleStatuses" (.strSliceSlice (some [some ["id1"]]))).request.Params
      = .strSliceSlice (some [some ["id1"]]) :=
  ⟨by decide, by decide,
    (params_passed_through plainClient (fixedEnv okResponse none)
      "/getInflightBundleStatuses" "getInflightBundleStatuses"
      (.strSliceSlice (some [some ["id1"]])) (by decide) (by decide)).1⟩

/-- C7: for every sequence of bundle ids, the request built by
`GetBundleStatuses` has method `getBundleStatuses` and params the single-element
list containing that sequence, ids in their given order; for `["id1","id2"]` the
params are `[["id1","id2"]]`. -/
theorem GetBundleStatuses_params (c : JitoJsonRpcClient) (env : Env)
    (bundleIds : Slice String) :
    (GetBundleStatuses c env bundleIds).request.Method = "getBundleStatuses" ∧
    (GetBundleStatuses c env bundleIds).request.Params
      = .strSliceSlice (some [bundleIds]) ∧
    (GetBundleStatuses c env (some ["id1", "id2"])).request.Params
      = .strSliceSlice (some [some ["id1", "id2"]]) := by
  have hb : ¬ ("getBundleStatuses" = "sendBundle") := by decide
  have ht : ¬ ("getBundleStatuses" = "sendTransaction") := by decide
  simp only [GetBundleStatuses_request, sendRequest_request]
  unfold requestParams
  simp only [if_neg hb, if_neg ht, and_self]

/-- C8: when the server's tip-account list is non-empty, of size N, and the
random index lies in the range 0 to N-1, `GetRandomTipAccount` returns no error
and a tip account whose address is the list element at that index, an address
present in the list. -/
theorem GetRandomTipAccount_member (c : JitoJsonRpcClient) (env : Env) (randIntn : Nat → Nat)
    (tipAddresses : Slice String)
    (hcall : (GetTipAccounts c env).err = none)
    (hlist : env.unmarshalStrings (GetTipAccounts c env).ret = .ok tipAddresses)
    (hne : 0 < Slice.len tipAddresses)
    (hidx : randIntn (Slice.len tipAddresses) < Slice.len tipAddresses) :
    ∃ address,
      GetRandomTipAccount c env randIntn = some (some { Address := address }, none) ∧
      (Slice.elems tipAddresses)[randIntn (Slice.len tipAddresses)]? = some address ∧
      address ∈ Slice.elems tipAddresses := by
  have hlt : randIntn (Slice.len tipAddresses) < (Slice.elems tipAddresses).length := hidx
  refine ⟨(Slice.elems tipAddresses)[randIntn (Slice.len tipAddresses)], ?_,
    List.getElem?_eq_getElem hlt, List.getElem_mem hlt⟩
  unfold GetRandomTipAccount
  simp only [hcall, hlist]
  rw [if_neg (Nat.pos_iff_ne_zero.mp hne)]
  simp only [List.getElem?_eq_getElem hlt]

theorem GetRandomTipAccount_member_witness :
    ∃ address,
      GetRandomTipAccount plainClient (fixedEnv okResponse (some ["tipA", "tipB", "tipC"]))
        (fun n => n - 1) = some (some { Address := address }, none) ∧
      (Slice.elems (some ["tipA", "tipB", "tipC"]))[(fun n => n - 1)
        (Slice.len (some ["tipA", "tipB", "tipC"]))]? = some address ∧
      address ∈ Slice.elems (some ["tipA", "tipB", "tipC"]) :=
  GetRandomTipAccount_member plainClient (fixedEnv okResponse (some ["tipA", "tipB", "tipC"]))
    (fun n => n - 1) (some ["tipA", "tipB", "tipC"]) rfl rfl (by decide) (by decide)

/-- C9: when the server's tip-account list is empty, `GetRandomTipAccount`
returns no address and the error saying that no tip accounts are available. -/
theorem GetRandomTipAccount_empty (c : JitoJsonRpcClient) (env : Env) (randIntn : Nat → Nat)
    (tipAddresses : Slice String)
    (hcall : (GetTipAccounts c env).err = none)
    (hlist : env.unmarshalStrings (GetTipAccounts c env).ret = .ok tipAddresses)
    (hempty : Slice.len tipAddresses = 0) :
    GetRandomTipAccount c env randIntn = some (none, some "no tip accounts available") := by
  unfold GetRandomTipAccount
  simp only [hcall, hlist]
  rw [if_pos hempty]

theorem GetRandomTipAccount_empty_witness :
    Slice.len (some [] : Slice String) = 0 ∧
    GetRandomTipAccount plainClient (fixedEnv okResponse (some [])) (fun n => n - 1)
      = some (none, some "no tip accounts available") :=
  ⟨rfl, GetRandomTipAccount_empty plainClient (fixedEnv okResponse (some []))
    (fun n => n - 1) (some []) rfl rfl rfl⟩

/-- C10 (as the code has it): for every list of transaction groups that has at
least one group, whose first group holds a transaction or is the nil slice, and
whose further groups hold no transaction, the method and params of the request
that `SendBundle` builds equal those that `sendRequest` builds for method
`sendBundle` and the same list of groups as params. -/
theorem SendBundle_agrees_with_sendRequest (c : JitoJsonRpcClient) (env : Env)
    (endpoint : String) (first : Slice String) (rest : List (Slice String))
    (hfirst : first ≠ some []) (hrest : ∀ g ∈ rest, Slice.elems g = []) :
    (SendBundle c env (some (first :: rest))).request.Method
      = (sendRequest c env endpoint "sendBundle"
          (.strSliceSlice (some (first :: rest)))).request.Method ∧
    (SendBundle c env (some (first :: rest))).request.Params
      = (sendRequest c env endpoint "sendBundle"
          (.strSliceSlice (some (first :: rest)))).request.Params := by
  rw [sendRequest_request]
  unfold SendBundle
  simp only [roundTrip_request, collectTransactions_single first rest hfirst hrest]
  refine ⟨trivial, ?_⟩
  unfold requestParams
  rw [if_pos rfl]
  rfl

/-- C10 at concrete inputs: one group of two transactions; and a nil first group
followed by an empty and a nil group. -/
theorem SendBundle_agrees_with_sendRequest_witness :
    (some ["txA", "txB"] : Slice String) ≠ some [] ∧
    (SendBundle plainClient (fixedEnv okResponse none) (some [some ["txA", "txB"]])).request.Params
      = (sendRequest plainClient (fixedEnv okResponse none) "/bundles" "sendBundle"
          (.strSliceSlice (some [some ["txA", "txB"]]))).request.Params ∧
    (SendBundle plainClient (fixedEnv okResponse none)
        (some [none, some [], none])).request.Params
      = (sendRequest plainClient (fixedEnv okResponse none) "/bundles" "sendBundle"
          (.strSliceSlice (some [none, some [], none]))).request.Params :=
  ⟨by decide,
    (SendBundle_agrees_with_sendRequest plainClient (fixedEnv okResponse none) "/bundles"
      (some ["txA", "txB"]) [] (by decide) (by simp)).2,
    (SendBundle_agrees_with_sendRequest plainClient (fixedEnv okResponse none) "/bundles"
      none [some [], none] (by decide) (by simp [Slice.elems])).2⟩

/-- C10 as stated fails on each kind of list the amended statement leaves out:
for no groups `SendBundle` builds the two-element params while `sendRequest`
passes the empty list through; for the two groups `[["txA"],["txB"]]` the request
of `SendBundle` carries both transactions while the one `sendRequest` builds
carries the first group; for the single empty non-nil group `SendBundle` carries
the nil slice while `sendRequest` carries the empty one. -/
theorem SendBundle_differs_from_sendRequest :
    (SendBundle plainClient (fixedEnv okResponse none) (some [])).request.Params
      ≠ (sendRequest plainClient (fixedEnv okResponse none) "/bundles" "sendBundle"
          (.strSliceSlice (some []))).request.Params ∧
    (SendBundle plainClient (fixedEnv okResponse none)
        (some [some ["txA"], some ["txB"]])).request.Params
      = .ifaceSlice (some [.strSlice (some ["txA", "txB"]), encodingBase64]) ∧
    (sendRequest plainClient (fixedEnv okResponse none) "/bundles" "sendBundle"
        (.strSliceSlice (some [some ["txA"], some ["txB"]]))).request.Params
      = .ifaceSlice (some [.strSlice (some ["txA"]), encodingBase64]) ∧
    (SendBundle plainClient (fixedEnv okResponse none)
        (some [some ["txA"], some ["txB"]])).request.Params
      ≠ (sendRequest plainClient (fixedEnv okResponse none) "/bundles" "sendBundle"
          (.strSliceSlice (some [some ["txA"], some ["txB"]]))).request.Params ∧
    (SendBundle plainClient (fixedEnv okResponse none) (some [some []])).request.Params
      ≠ (sendRequest plainClient (fixedEnv okResponse none) "/bundles" "sendBundle"
          (.strSliceSlice (some [some []]))).request.Params := by
  refine ⟨?_, rfl, rfl, ?_, ?_⟩
  · intro h
    have h1 : GoValue.ifaceSlice (some [.strSlice none, encodingBase64])
        = GoValue.strSliceSlice (some []) := h
    cases h1
  · intro h
    have h1 : GoValue.ifaceSlice (some [.strSlice (some ["txA", "txB"]), encodingBase64])
        = GoValue.ifaceSlice (some [.strSlice (some ["txA"]), encodingBase64]) := h
    simp at h1
  · intro h
    have h1 : GoValue.ifaceSlice (some [.strSlice none, encodingBase64])
        = GoValue.ifaceSlice (some [.strSlice (some []), encodingBase64]) := h
    simp at h1

end JitoRpc
